import Mathlib

/-!
Verification of the qwickapps/logging core (the dual-output `Logger`,
its emission pipeline, the registry `getLogger`, `child`, `setConfig`,
`with`, and the pino backend provider), shallowly embedded from the
TypeScript source.  Machine state (the logger forest and the registry)
is explicit; the observable effects of one emission call are a list of
events.
-/

/-- Log levels, as in `type LogLevel = 'debug' | 'info' | 'warn' | 'error'`. -/
inductive Level where
  | debug
  | info
  | warn
  | error
deriving DecidableEq, Repr

/-- Numeric ordering of levels, from `levelOrder` in the source. -/
def levelOrder : Level → Nat
  | Level.debug => 10
  | Level.info => 20
  | Level.warn => 30
  | Level.error => 40

/-- Embeds `levelEnabled(target, current)`: `levelOrder[target] >= levelOrder[current]`. -/
def levelEnabled (target current : Level) : Bool :=
  decide (levelOrder target ≥ levelOrder current)

/-- Rotation frequency option, from `frequency?: 'daily' | 'hourly'`. -/
inductive Frequency where
  | daily
  | hourly
deriving DecidableEq, Repr

/-- A custom log transport.  Its `handle` method either returns normally or
throws; for the fan-out semantics only that binary behaviour matters. -/
structure LogTransport where
  throws : Bool
deriving DecidableEq, Repr

/-- An `Error` instance as observed by the logger: `name`, `message`, `stack`. -/
structure JsError where
  name : String
  message : String
  stack : String
deriving DecidableEq, Repr

/-- A scalar JavaScript value appearing in log-call arguments. -/
inductive JScalar where
  | str : String → JScalar
  | num : Int → JScalar
  | boolv : Bool → JScalar
deriving DecidableEq, Repr

/-- A value of a field inside a context object: a scalar or an `Error` instance. -/
inductive JField where
  | scalar : JScalar → JField
  | errv : JsError → JField
deriving DecidableEq, Repr

/-- A variadic argument of a log call: a scalar, an `Error` instance, or a
plain object (the only shape `isPlainObject` accepts for context extraction). -/
inductive JArg where
  | scalar : JScalar → JArg
  | errv : JsError → JArg
  | obj : List (String × JField) → JArg
deriving DecidableEq, Repr

/-- A value of a field of the structured entry: either a context field value
or the flattened `err` object built from an `Error` (its `name`, `message`,
`stack`). -/
inductive EValue where
  | field : JField → EValue
  | errObj : JsError → EValue
deriving DecidableEq, Repr

/-- First-binding lookup in an association list, as JavaScript property read
on an object with unique keys (and `Map.get`). -/
def alookup {α : Type} (m : List (String × α)) (k : String) : Option α :=
  match m.find? (fun p => p.1 == k) with
  | some p => some p.2
  | none => none

/-- Property write on a JavaScript object: replace the binding in place if the
key exists, otherwise append it. -/
def jsSet {α : Type} : List (String × α) → String → α → List (String × α)
  | [], k, v => [(k, v)]
  | p :: rest, k, v => if p.1 == k then (k, v) :: rest else p :: jsSet rest k v

/-- Embeds `delete obj[k]`. -/
def jsDelete {α : Type} (o : List (String × α)) (k : String) : List (String × α) :=
  o.filter (fun p => !(p.1 == k))

/-- Embeds `Object.assign(entry, context)`: fold the context fields into the
entry in order. -/
def objAssign (base : List (String × EValue)) (src : List (String × JField)) :
    List (String × EValue) :=
  src.foldl (fun acc p => jsSet acc p.1 (EValue.field p.2)) base

/-- Process-level environment, fixed at module load: `NODE_ENV === 'production'`,
`STRIP_LOGS === 'true'`, and whether pino loaded. -/
structure Env where
  isProd : Bool
  stripLogs : Bool
  pinoAvailable : Bool
deriving DecidableEq, Repr

/-- Embeds the `LoggerOptions` interface; every field optional.  The same shape
serves as the partial passed to `setConfig`. -/
structure LoggerOptions where
  ns : Option String := none
  enabled : Option Bool := none
  level : Option Level := none
  logDir : Option String := none
  logFileName : Option String := none
  disableConsole : Option Bool := none
  maxSize : Option String := none
  maxFiles : Option Nat := none
  frequency : Option Frequency := none
  transports : Option (List LogTransport) := none
deriving DecidableEq, Repr

/-- Embeds the JavaScript default idiom `opt || dflt` for strings, where the
empty string is falsy. -/
def orEmpty (o : Option String) (dflt : String) : String :=
  match o with
  | some s => if s == "" then dflt else s
  | none => dflt

/-- State of one `Logger` instance.  `children` is the memoization map of
`child()`; its values are indices into the system's logger store. -/
structure Logger where
  ns : String
  enabled : Bool
  minLevel : Level
  logDir : String
  logFileName : String
  disableConsole : Bool
  maxSize : Option String
  maxFiles : Option Nat
  frequency : Option Frequency
  transports : List LogTransport
  children : List (String × Nat)
deriving DecidableEq, Repr

/-- Embeds the `Logger` constructor: field defaulting and the `enabled` rule
`!stripLogs && (options.enabled !== false) && (!isProd || pinoAvailable || hasTransports)`. -/
def mkLogger (env : Env) (options : LoggerOptions) : Logger :=
  let transports := options.transports.getD []
  { ns := orEmpty options.ns "Anonymous"
    minLevel := options.level.getD (if env.isProd then Level.info else Level.debug)
    logDir := orEmpty options.logDir "./logs"
    logFileName := orEmpty options.logFileName "app.log"
    disableConsole := options.disableConsole.getD false
    maxSize := options.maxSize
    maxFiles := options.maxFiles
    frequency := options.frequency
    transports := transports
    children := []
    enabled := !env.stripLogs && !(options.enabled == some false) &&
      (!env.isProd || env.pinoAvailable || decide (transports.length > 0)) }

/-- Observable effects of one emission call. -/
inductive Event where
  | backendCall : Level → List (String × EValue) → List JArg → Event
  | transportCall : Nat → Level → String → String → List (String × EValue) → Event
  | consoleLine : Level → String → Event
  | consoleDiag : Event
deriving DecidableEq, Repr

/-- Recognizes a console-stage line (stage 3), as opposed to the transport
failure diagnostic. -/
def isConsoleLine : Event → Bool
  | Event.consoleLine _ _ => true
  | _ => false

/-- Index of a transport fan-out event, when the event is one. -/
def trIdx : Event → Option Nat
  | Event.transportCall i _ _ _ _ => some i
  | _ => none

/-- Embeds `formatConsoleMessage`: the wall-clock `HH:MM:SS` prefix is the
`now` parameter, the rest is built exactly as in the source. -/
def formatConsoleMessage (now ns msg : String) : String :=
  now ++ " [" ++ ns ++ "] " ++ msg

/-- Embeds the gate at the top of `emit`: non-error levels return early when
the logger is disabled, or when no pino backend is active and the level is
below the minimum. -/
def gateBlocks (env : Env) (lg : Logger) (level : Level) : Bool :=
  if level != Level.error then
    if !lg.enabled then true
    else if !env.pinoAvailable && !levelEnabled level lg.minLevel then true
    else false
  else false

/-- Embeds the context-extraction step: a leading plain object (not an
`Error`) is removed from the argument list and becomes the context. -/
def extractContext (args : List JArg) : Option (List (String × JField)) × List JArg :=
  match args with
  | JArg.obj fields :: rest => (some fields, rest)
  | _ => (none, args)

/-- Embeds the error-lifting step: if `context.error` is an `Error`, flatten
it and delete it from the context. -/
def liftError (ctx : List (String × JField)) :
    List (String × JField) × Option JsError :=
  match alookup ctx "error" with
  | some (JField.errv e) => (jsDelete ctx "error", some e)
  | _ => (ctx, none)

/-- The structured entry built by `emit`: `{ msg: message }`, the context
merged in, and the flattened error under `err`. -/
def emitEntry (message : String) (args : List JArg) : List (String × EValue) :=
  match (extractContext args).1 with
  | some ctx =>
    let lifted := liftError ctx
    let merged := objAssign [("msg", EValue.field (JField.scalar (JScalar.str message)))] lifted.1
    match lifted.2 with
    | some e => jsSet merged "err" (EValue.errObj e)
    | none => merged
  | none => [("msg", EValue.field (JField.scalar (JScalar.str message)))]

/-- Arguments forwarded to the backend after context extraction. -/
def restArgs (args : List JArg) : List JArg :=
  (extractContext args).2

/-- Transport fan-out loop body: calls `handle` on each transport in order
until one throws; the thrown exception escapes the loop. -/
def fanoutAux (level : Level) (ns msg : String) (entry : List (String × EValue)) :
    Nat → List LogTransport → List Event × Bool
  | _, [] => ([], false)
  | i, t :: rest =>
    if t.throws then ([Event.transportCall i level ns msg entry], true)
    else
      let r := fanoutAux level ns msg entry (i + 1) rest
      (Event.transportCall i level ns msg entry :: r.1, r.2)

/-- Embeds the transport stage of `emit`: the whole loop sits inside one
`try`; a caught exception is reported once via `console.error`. -/
def fanout (transports : List LogTransport) (level : Level) (ns msg : String)
    (entry : List (String × EValue)) : List Event :=
  let r := fanoutAux level ns msg entry 0 transports
  r.1 ++ (if r.2 then [Event.consoleDiag] else [])

/-- Embeds `Logger.emit(level, message, args, writeConsole)` as the list of
events it produces: gate, entry construction, structured backend call,
transport fan-out, console stage. -/
def emitEvents (env : Env) (lg : Logger) (level : Level) (message : String)
    (args : List JArg) (writeConsole : Bool) (now : String) : List Event :=
  if gateBlocks env lg level then []
  else
    let entry := emitEntry message args
    let transportEvs :=
      if lg.transports.length > 0 then fanout lg.transports level lg.ns message entry
      else []
    let consoleEvs :=
      if writeConsole && level != Level.debug && !lg.disableConsole then
        [Event.consoleLine level (formatConsoleMessage now lg.ns message)]
      else []
    Event.backendCall level entry (restArgs args) :: (transportEvs ++ consoleEvs)

/-- Embeds `Logger.debug`: emission with `writeConsole = false`. -/
def loggerDebug (env : Env) (lg : Logger) (msg : String) (args : List JArg)
    (now : String) : List Event :=
  emitEvents env lg Level.debug msg args false now

/-- Embeds `Logger.info`. -/
def loggerInfo (env : Env) (lg : Logger) (msg : String) (args : List JArg)
    (now : String) : List Event :=
  emitEvents env lg Level.info msg args true now

/-- Embeds `Logger.warn`. -/
def loggerWarn (env : Env) (lg : Logger) (msg : String) (args : List JArg)
    (now : String) : List Event :=
  emitEvents env lg Level.warn msg args true now

/-- Embeds `Logger.error`. -/
def loggerError (env : Env) (lg : Logger) (msg : String) (args : List JArg)
    (now : String) : List Event :=
  emitEvents env lg Level.error msg args true now

/-- Dispatch of the four public emission methods by level. -/
def loggerCall (env : Env) (lg : Logger) (level : Level) (msg : String)
    (args : List JArg) (now : String) : List Event :=
  match level with
  | Level.debug => loggerDebug env lg msg args now
  | Level.info => loggerInfo env lg msg args now
  | Level.warn => loggerWarn env lg msg args now
  | Level.error => loggerError env lg msg args now

/-- The process-wide machine state: the store of all `Logger` instances
(reference identity is the index) and the registry map from dotted paths to
instances. -/
structure Sys where
  loggers : List Logger
  registry : List (String × Nat)
deriving DecidableEq, Repr

/-- The empty process state: no loggers, empty registry. -/
def sysInit : Sys := { loggers := [], registry := [] }

/-- Replace the logger stored at an index. -/
def setLogger (sys : Sys) (i : Nat) (lg : Logger) : Sys :=
  { sys with loggers := sys.loggers.set i lg }

/-- Embeds `Logger.child(subNamespace)`: memoized per child name; a new child
is constructed with the parent's settings, the parent's transport list, and
namespace `parent.ns ++ "." ++ sub`, then recorded in the parent's child map. -/
def childOp (env : Env) (sys : Sys) (pid : Nat) (sub : String) : Sys × Nat :=
  match sys.loggers[pid]? with
  | none => (sys, pid)
  | some p =>
    match alookup p.children sub with
    | some cid => (sys, cid)
    | none =>
      let cid := sys.loggers.length
      let childLg := mkLogger env
        { ns := some (p.ns ++ "." ++ sub)
          enabled := some p.enabled
          level := some p.minLevel
          logDir := some p.logDir
          logFileName := some p.logFileName
          disableConsole := some p.disableConsole
          maxSize := p.maxSize
          maxFiles := p.maxFiles
          frequency := p.frequency
          transports := some p.transports }
      let sys1 : Sys := { sys with loggers := sys.loggers ++ [childLg] }
      let sys2 := setLogger sys1 pid { p with children := p.children ++ [(sub, cid)] }
      (sys2, cid)

/-- Embeds the JavaScript `path.split('.')` on the character list of the path
(single-character separator semantics). -/
def splitDotsAux : List Char → List Char → List String
  | [], acc => [String.mk acc.reverse]
  | c :: cs, acc =>
    if c = '.' then String.mk acc.reverse :: splitDotsAux cs []
    else splitDotsAux cs (c :: acc)

/-- Splits a dotted path into its segments, as `path.split('.')`. -/
def splitDots (s : String) : List String :=
  splitDotsAux s.data []

/-- Joins segments onto a base path with dots, as the running `currentPath`
accumulation in `getLogger`. -/
def joinPath (base : String) (segs : List String) : String :=
  segs.foldl (fun acc s => acc ++ "." ++ s) base

/-- The walk down the hierarchy inside `getLogger`: for each remaining
segment, extend the current path, create and register the child if the path
is not yet in the registry, and continue from the registered instance. -/
def getLoggerLoop (env : Env) : List String → Sys → Nat → String → Sys × Nat
  | [], sys, cur, _ => (sys, cur)
  | seg :: rest, sys, cur, curPath =>
    let nextPath := curPath ++ "." ++ seg
    match alookup sys.registry nextPath with
    | some cid => getLoggerLoop env rest sys cid nextPath
    | none =>
      let r := childOp env sys cur seg
      let sys2 : Sys := { r.1 with registry := r.1.registry ++ [(nextPath, r.2)] }
      getLoggerLoop env rest sys2 ((alookup sys2.registry nextPath).getD 0) nextPath

/-- Embeds `getLogger(path)`: registry hit returns the cached instance;
otherwise the path is split, the root is materialized if absent, and the walk
creates and caches the remaining ancestors and the leaf. -/
def getLogger (env : Env) (sys : Sys) (path : String) : Sys × Nat :=
  match alookup sys.registry path with
  | some id => (sys, id)
  | none =>
    match splitDots path with
    | [] => (sys, 0)
    | rootName :: rest =>
      let sys1 :=
        match alookup sys.registry rootName with
        | some _ => sys
        | none =>
          let rid := sys.loggers.length
          let rootLg := mkLogger env { ns := some rootName }
          { loggers := sys.loggers ++ [rootLg],
            registry := sys.registry ++ [(rootName, rid)] }
      getLoggerLoop env rest sys1 ((alookup sys1.registry rootName).getD 0) rootName

/-- Embeds the per-instance part of `Logger.setConfig(config)`: each managed
field is overwritten when present; `enabled` is recomputed when the partial
carries `enabled`; a non-empty `transports` list force-enables the logger
unless the strip flag is set. -/
def setConfigOne (env : Env) (lg : Logger) (cfg : LoggerOptions) : Logger :=
  let l1 := match cfg.logDir with | some v => { lg with logDir := v } | none => lg
  let l2 := match cfg.logFileName with | some v => { l1 with logFileName := v } | none => l1
  let l3 := match cfg.disableConsole with | some v => { l2 with disableConsole := v } | none => l2
  let l4 := match cfg.maxSize with | some v => { l3 with maxSize := some v } | none => l3
  let l5 := match cfg.maxFiles with | some v => { l4 with maxFiles := some v } | none => l4
  let l6 := match cfg.frequency with | some v => { l5 with frequency := some v } | none => l5
  let l7 := match cfg.level with | some v => { l6 with minLevel := v } | none => l6
  let l8 := match cfg.enabled with
    | some b =>
      let hasTransports :=
        decide ((cfg.transports.getD []).length > 0) || decide (l7.transports.length > 0)
      { l7 with enabled := !env.stripLogs && b &&
          (!env.isProd || env.pinoAvailable || hasTransports) }
    | none => l7
  match cfg.transports with
  | some ts =>
    let l9 := { l8 with transports := ts }
    if decide (ts.length > 0) && !l9.enabled && !env.stripLogs then
      { l9 with enabled := true }
    else l9
  | none => l8

/-- Embeds `Logger.setConfig` including the recursive propagation to every
cached child.  The fuel bounds the recursion depth; any fuel at least the
depth of the child tree gives the JavaScript behaviour. -/
def setConfigSys (env : Env) : Nat → Sys → Nat → LoggerOptions → Sys
  | 0, sys, _, _ => sys
  | Nat.succ fuel, sys, id, cfg =>
    match sys.loggers[id]? with
    | none => sys
    | some lg =>
      let lg1 := setConfigOne env lg cfg
      let sys1 := setLogger sys id lg1
      lg1.children.foldl (fun s p => setConfigSys env fuel s p.2 cfg) sys1

/-- Embeds `Logger.with(bindings)`: a fresh `Logger` constructed from the
receiver's settings, with no `transports` entry in the options and without
recording the new instance in the receiver's child map. -/
def withOp (env : Env) (sys : Sys) (id : Nat) : Sys × Nat :=
  match sys.loggers[id]? with
  | none => (sys, id)
  | some lg =>
    let fresh := mkLogger env
      { ns := some lg.ns
        enabled := some lg.enabled
        level := some lg.minLevel
        logDir := some lg.logDir
        logFileName := some lg.logFileName
        disableConsole := some lg.disableConsole
        maxSize := lg.maxSize
        maxFiles := lg.maxFiles
        frequency := lg.frequency }
    ({ sys with loggers := sys.loggers ++ [fresh] }, sys.loggers.length)

/-- Result of the backend provider's module-load phase: whether a structured
backend is available and, if constructed, the root instance token. -/
structure ProviderState where
  pinoAvailable : Bool
  basePino : Option Nat
deriving DecidableEq, Repr

/-- Embeds the `try { pinoModule = require('pino'); ... } catch { ... }`
block: a load failure is swallowed and availability becomes false. -/
def tryLoadPino (requireResult : Except String (Option Nat)) : Bool × Option Nat :=
  match requireResult with
  | Except.error _ => (false, none)
  | Except.ok m => (m.isSome, m)

/-- Embeds the provider's module initialization: the guarded `require`
followed by the unguarded `basePino = pinoModule(pinoConfig)` construction.
An exception from the construction step escapes the module initializer. -/
def providerInit (requireResult : Except String (Option Nat))
    (construct : Nat → Except String Nat) : Except String ProviderState :=
  let loaded := tryLoadPino requireResult
  if loaded.1 then
    match loaded.2 with
    | some modl =>
      match construct modl with
      | Except.error e => Except.error e
      | Except.ok p => Except.ok { pinoAvailable := true, basePino := some p }
    | none => Except.ok { pinoAvailable := false, basePino := none }
  else Except.ok { pinoAvailable := false, basePino := none }

/-- Development-mode environment: not production, no strip flag, pino absent. -/
def envDev : Env := { isProd := false, stripLogs := false, pinoAvailable := false }

/-- Production environment with pino unavailable and no strip flag. -/
def envProdNoPino : Env := { isProd := true, stripLogs := false, pinoAvailable := false }

/-- A transport whose `handle` returns normally. -/
def trOk : LogTransport := { throws := false }

/-- A transport whose `handle` throws. -/
def trBad : LogTransport := { throws := true }

/-- A logger whose transport list is a throwing transport followed by a
well-behaved one. -/
def lgC1 : Logger :=
  { ns := "S", enabled := true, minLevel := Level.debug, logDir := "./logs",
    logFileName := "app.log", disableConsole := false, maxSize := none,
    maxFiles := none, frequency := none, transports := [trBad, trOk],
    children := [] }

/-- A production logger enabled only because a transport was supplied. -/
def lgProdTr : Logger := mkLogger envProdNoPino { transports := some [trOk] }

/-- One-logger state holding `lgProdTr`. -/
def sysC10 : Sys := { loggers := [lgProdTr], registry := [] }

/-- One-root state for the propagation example. -/
def sysP0 : Sys :=
  { loggers := [mkLogger envProdNoPino { ns := some "P" }], registry := [("P", 0)] }

/-- The state after creating two children `c1` and `c2` under the root of
`sysP0`. -/
def sysTwoKids : Sys :=
  (childOp envProdNoPino (childOp envProdNoPino sysP0 0 "c1").1 0 "c2").1

/-- One-logger state used to instantiate hypothesis-bearing theorems. -/
def sysW : Sys :=
  { loggers := [mkLogger envDev { ns := some "A" }], registry := [("A", 0)] }

/-- Checks that a child-map entry points at a stored logger whose namespace is
the parent's namespace extended with the entry's name. -/
def childNsOK (sys : Sys) (l : Logger) (p : String × Nat) : Bool :=
  match sys.loggers[p.2]? with
  | some cl => cl.ns == l.ns ++ "." ++ p.1
  | none => false

/-- The namespace invariant of the logger forest. -/
def WFNamespaces (sys : Sys) : Prop :=
  ∀ l ∈ sys.loggers, ∀ p ∈ l.children, childNsOK sys l p = true

/-- No child-map entry anywhere in the state points at index `j`. -/
def childAvoid (sys : Sys) (j : Nat) : Prop :=
  ∀ l ∈ sys.loggers, ∀ p ∈ l.children, p.2 ≠ j

/-- Every child-map entry points inside the logger store. -/
def ChildrenClosed (sys : Sys) : Prop :=
  ∀ l ∈ sys.loggers, ∀ p ∈ l.children, p.2 < sys.loggers.length

/-- A disabled development logger. -/
def lgOff : Logger :=
  { ns := "S", enabled := false, minLevel := Level.debug, logDir := "./logs",
    logFileName := "app.log", disableConsole := false, maxSize := none,
    maxFiles := none, frequency := none, transports := [], children := [] }

/-- A default development logger with namespace `A`. -/
def lgA : Logger := mkLogger envDev { ns := some "A" }

/-- The Error instance used in the concrete error-lifting example. -/
def jsBoom : JsError := { name := "Error", message := "boom", stack := "st" }

/-- A concrete context object whose `error` field is an Error instance. -/
def ctxC7 : List (String × JField) :=
  [("error", JField.errv jsBoom), ("retries", JField.scalar (JScalar.num 3))]

instance decWFNamespaces (sys : Sys) : Decidable (WFNamespaces sys) :=
  inferInstanceAs (Decidable (∀ l ∈ sys.loggers, ∀ p ∈ l.children, childNsOK sys l p = true))

instance decChildAvoid (sys : Sys) (j : Nat) : Decidable (childAvoid sys j) :=
  inferInstanceAs (Decidable (∀ l ∈ sys.loggers, ∀ p ∈ l.children, p.2 ≠ j))

instance decChildrenClosed (sys : Sys) : Decidable (ChildrenClosed sys) :=
  inferInstanceAs (Decidable (∀ l ∈ sys.loggers, ∀ p ∈ l.children, p.2 < sys.loggers.length))

theorem alookup_cons {α : Type} (p : String × α) (m : List (String × α)) (k : String) :
    alookup (p :: m) k = if p.1 == k then some p.2 else alookup m k := by
  unfold alookup
  rw [List.find?]
  cases h : p.1 == k <;> simp [h]

theorem alookup_append_of_none {α : Type} (m m2 : List (String × α)) (k : String)
    (h : alookup m k = none) : alookup (m ++ m2) k = alookup m2 k := by
  induction m with
  | nil => simp
  | cons p rest ih =>
    rw [List.cons_append, alookup_cons]
    rw [alookup_cons] at h
    cases hpk : p.1 == k with
    | true => simp [hpk] at h
    | false =>
      simp only [hpk] at h ⊢
      simp at h ⊢
      exact ih h

theorem alookup_append_self {α : Type} (m : List (String × α)) (k : String) (v : α)
    (h : alookup m k = none) : alookup (m ++ [(k, v)]) k = some v := by
  rw [alookup_append_of_none m _ k h, alookup_cons]
  simp

theorem alookup_mem_pair {α : Type} {m : List (String × α)} {k : String} {v : α}
    (h : alookup m k = some v) : (k, v) ∈ m := by
  induction m with
  | nil => simp [alookup] at h
  | cons p rest ih =>
    rw [alookup_cons] at h
    cases hpk : p.1 == k with
    | true =>
      simp [hpk] at h
      have hk : p.1 = k := by simpa using hpk
      have hp : p = (k, v) := by
        cases p
        simp_all
      rw [← hp]
      exact List.mem_cons_self p rest
    | false =>
      simp [hpk] at h
      right
      exact ih h

theorem alookup_key_mem {α : Type} {m : List (String × α)} {k : String} {v : α}
    (h : alookup m k = some v) : k ∈ m.map Prod.fst := by
  have := alookup_mem_pair h
  exact List.mem_map.mpr ⟨(k, v), this, rfl⟩

theorem alookup_jsSet_self {α : Type} (o : List (String × α)) (k : String) (v : α) :
    alookup (jsSet o k v) k = some v := by
  induction o with
  | nil => simp [jsSet, alookup_cons]
  | cons p rest ih =>
    rw [jsSet]
    cases hpk : p.1 == k with
    | true => simp [hpk, alookup_cons]
    | false => simp [hpk, alookup_cons, ih]

theorem alookup_jsSet_ne {α : Type} (o : List (String × α)) (k k2 : String) (v : α)
    (hne : k2 ≠ k) : alookup (jsSet o k v) k2 = alookup o k2 := by
  induction o with
  | nil =>
    rw [jsSet, alookup_cons]
    simp [alookup, Ne.symm hne]
  | cons p rest ih =>
    cases hpk : p.1 == k with
    | true =>
      have hk : p.1 = k := by simpa using hpk
      have hred : jsSet (p :: rest) k v = (k, v) :: rest := by
        rw [jsSet]
        simp [hpk]
      rw [hred, alookup_cons, alookup_cons]
      have h2 : (k == k2) = false := by simpa using Ne.symm hne
      simp [h2, hk]
    | false =>
      have hred : jsSet (p :: rest) k v = p :: jsSet rest k v := by
        rw [jsSet]
        simp [hpk]
      rw [hred, alookup_cons, alookup_cons, ih]

theorem mem_jsDelete_ne {α : Type} {o : List (String × α)} {k : String} {p : String × α}
    (h : p ∈ jsDelete o k) : (p.1 == k) = false := by
  have := List.of_mem_filter h
  simpa using this

theorem alookup_jsDelete_self {α : Type} (o : List (String × α)) (k : String) :
    alookup (jsDelete o k) k = none := by
  cases h : alookup (jsDelete o k) k with
  | none => rfl
  | some v =>
    have hmem := alookup_mem_pair h
    have := mem_jsDelete_ne hmem
    simp at this

theorem alookup_jsDelete_ne {α : Type} (o : List (String × α)) (k k2 : String)
    (hne : k2 ≠ k) : alookup (jsDelete o k) k2 = alookup o k2 := by
  induction o with
  | nil => simp [jsDelete]
  | cons p rest ih =>
    rw [jsDelete, List.filter]
    cases hpk : p.1 == k with
    | true =>
      have hk : p.1 = k := by simpa using hpk
      rw [alookup_cons]
      have : (p.1 == k2) = false := by
        rw [hk]
        simpa using Ne.symm hne
      simp only [this]
      simp only [Bool.not_true]
      rw [← ih]
      rfl
    | false =>
      simp only [Bool.not_false]
      rw [alookup_cons, alookup_cons, ← ih]
      rfl

theorem objAssign_lookup_of_nodup (base : List (String × EValue))
    (src : List (String × JField)) (k : String) (hnd : (src.map Prod.fst).Nodup) :
    alookup (objAssign base src) k =
      match alookup src k with
      | some v => some (EValue.field v)
      | none => alookup base k := by
  induction src generalizing base with
  | nil => simp [objAssign, alookup]
  | cons p rest ih =>
    have hnd2 : (rest.map Prod.fst).Nodup := by
      simpa using hnd.of_cons
    have hnotin : p.1 ∉ rest.map Prod.fst := by
      have := hnd
      rw [List.map_cons, List.nodup_cons] at this
      exact this.1
    have hstep : objAssign base (p :: rest) =
        objAssign (jsSet base p.1 (EValue.field p.2)) rest := rfl
    rw [hstep, ih _ hnd2, alookup_cons]
    cases hrest : alookup rest k with
    | some v =>
      have hkmem : k ∈ rest.map Prod.fst := alookup_key_mem hrest
      have hpk : (p.1 == k) = false := by
        cases hpe : p.1 == k with
        | false => rfl
        | true =>
          have : p.1 = k := by simpa using hpe
          exact absurd (this ▸ hkmem) hnotin
      simp [hpk]
    | none =>
      cases hpe : p.1 == k with
      | true =>
        have hk : p.1 = k := by simpa using hpe
        simp only [hpe]
        rw [hk, alookup_jsSet_self]
        simp
      | false =>
        have : k ≠ p.1 := by
          intro hkk
          rw [hkk] at hpe
          simp at hpe
        simp only [hpe]
        rw [alookup_jsSet_ne _ _ _ _ this]
        simp

theorem fanoutAux_not_console (level : Level) (ns msg : String)
    (entry : List (String × EValue)) :
    ∀ ts k, ∀ e ∈ (fanoutAux level ns msg entry k ts).1, isConsoleLine e = false := by
  intro ts
  induction ts with
  | nil => intro k e he; simp [fanoutAux] at he
  | cons t rest ih =>
    intro k e he
    rw [fanoutAux] at he
    cases ht : t.throws with
    | true =>
      simp [ht] at he
      rw [he]
      rfl
    | false =>
      simp [ht] at he
      rcases he with he | he
      · rw [he]; rfl
      · exact ih (k + 1) e he

theorem fanout_not_console (ts : List LogTransport) (level : Level) (ns msg : String)
    (entry : List (String × EValue)) :
    ∀ e ∈ fanout ts level ns msg entry, isConsoleLine e = false := by
  intro e he
  rw [fanout] at he
  rcases List.mem_append.mp he with he | he
  · exact fanoutAux_not_console level ns msg entry ts 0 e he
  · cases hb : (fanoutAux level ns msg entry 0 ts).2 <;> simp [hb] at he
    rw [he]
    rfl

theorem emitEvents_all_not_console (env : Env) (lg : Logger) (level : Level)
    (msg : String) (args : List JArg) (now : String) (wc : Bool)
    (h : wc = false ∨ lg.disableConsole = true ∨ level = Level.debug) :
    ∀ e ∈ emitEvents env lg level msg args wc now, isConsoleLine e = false := by
  intro e he
  rw [emitEvents] at he
  cases hg : gateBlocks env lg level with
  | true => simp [hg] at he
  | false =>
    simp only [hg] at he
    have hcond : (wc && level != Level.debug && !lg.disableConsole) = false := by
      rcases h with h | h | h <;> simp [h]
    simp only [hcond] at he
    simp at he
    rcases he with he | ⟨-, he⟩
    · rw [he]; rfl
    · exact fanout_not_console lg.transports level lg.ns msg (emitEntry msg args) e he

/-- C2: for every non-error level, a call on a disabled logger emits nothing,
and likewise emits nothing when no structured backend is active and the level
is below the minimum level; an error-level call bypasses both gates, always
reaches the structured backend, and produces a console line exactly when
`disableConsole` is not set. -/
theorem claim2_gate : ∀ (env : Env) (lg : Logger) (msg : String) (args : List JArg)
    (now : String),
    (∀ level, level ≠ Level.error → lg.enabled = false →
      loggerCall env lg level msg args now = []) ∧
    (∀ level, level ≠ Level.error → env.pinoAvailable = false →
      levelOrder level < levelOrder lg.minLevel →
      loggerCall env lg level msg args now = []) ∧
    Event.backendCall Level.error (emitEntry msg args) (restArgs args) ∈
      loggerError env lg msg args now ∧
    (lg.disableConsole = false →
      Event.consoleLine Level.error (formatConsoleMessage now lg.ns msg) ∈
        loggerError env lg msg args now) ∧
    (lg.disableConsole = true →
      ∀ e ∈ loggerError env lg msg args now, isConsoleLine e = false) := by
  intro env lg msg args now
  refine ⟨?_, ?_, ?_, ?_, ?_⟩
  · intro level hne hen
    cases level with
    | error => exact absurd rfl hne
    | debug => simp [loggerCall, loggerDebug, emitEvents, gateBlocks, hen]
    | info => simp [loggerCall, loggerInfo, emitEvents, gateBlocks, hen]
    | warn => simp [loggerCall, loggerWarn, emitEvents, gateBlocks, hen]
  · intro level hne hp hlt
    have hle : levelEnabled level lg.minLevel = false := by
      simp only [levelEnabled, decide_eq_false_iff_not]
      omega
    cases level with
    | error => exact absurd rfl hne
    | debug =>
      cases he : lg.enabled <;>
        simp [loggerCall, loggerDebug, emitEvents, gateBlocks, hp, hle, he]
    | info =>
      cases he : lg.enabled <;>
        simp [loggerCall, loggerInfo, emitEvents, gateBlocks, hp, hle, he]
    | warn =>
      cases he : lg.enabled <;>
        simp [loggerCall, loggerWarn, emitEvents, gateBlocks, hp, hle, he]
  · simp [loggerError, emitEvents, gateBlocks]
  · intro hdc
    simp [loggerError, emitEvents, gateBlocks, hdc, formatConsoleMessage]
  · intro hdc
    exact emitEvents_all_not_console env lg Level.error msg args now true (Or.inr (Or.inl hdc))

/-- Witness for C2 at a concrete disabled logger and a concrete error call. -/
theorem claim2_gate_witness :
    loggerCall envDev lgOff Level.warn "x" [] "12:00:00" = [] ∧
    Event.backendCall Level.error (emitEntry "x" []) (restArgs []) ∈
      loggerError envDev lgOff "x" [] "12:00:00" := by
  constructor
  · exact (claim2_gate envDev lgOff "x" [] "12:00:00").1 Level.warn (by decide) rfl
  · exact (claim2_gate envDev lgOff "x" [] "12:00:00").2.2.1

/-- C3: a debug call never produces a console-stage line under any
configuration; every info, warn or error call that passes the gate produces
the console line `now [ns] msg` unless `disableConsole` is set, and no call
produces a console line when `disableConsole` is set. -/
theorem claim3_console_policy : ∀ (env : Env) (lg : Logger) (msg : String)
    (args : List JArg) (now : String),
    (∀ e ∈ loggerDebug env lg msg args now, isConsoleLine e = false) ∧
    (∀ level, level ≠ Level.debug → gateBlocks env lg level = false →
      lg.disableConsole = false →
      Event.consoleLine level (now ++ " [" ++ lg.ns ++ "] " ++ msg) ∈
        loggerCall env lg level msg args now) ∧
    (∀ level, lg.disableConsole = true →
      ∀ e ∈ loggerCall env lg level msg args now, isConsoleLine e = false) := by
  intro env lg msg args now
  refine ⟨?_, ?_, ?_⟩
  · exact emitEvents_all_not_console env lg Level.debug msg args now false (Or.inl rfl)
  · intro level hne hg hdc
    cases level with
    | debug => exact absurd rfl hne
    | info =>
      simp [loggerCall, loggerInfo, emitEvents, hg, hdc, formatConsoleMessage]
    | warn =>
      simp [loggerCall, loggerWarn, emitEvents, hg, hdc, formatConsoleMessage]
    | error =>
      simp [loggerCall, loggerError, emitEvents, hg, hdc, formatConsoleMessage]
  · intro level hdc
    cases level with
    | debug =>
      exact emitEvents_all_not_console env lg Level.debug msg args now false (Or.inl rfl)
    | info =>
      exact emitEvents_all_not_console env lg Level.info msg args now true (Or.inr (Or.inl hdc))
    | warn =>
      exact emitEvents_all_not_console env lg Level.warn msg args now true (Or.inr (Or.inl hdc))
    | error =>
      exact emitEvents_all_not_console env lg Level.error msg args now true (Or.inr (Or.inl hdc))

/-- Witness for C3 at a concrete logger: an info call puts the formatted line
on the console and a debug call puts nothing there. -/
theorem claim3_console_policy_witness :
    Event.consoleLine Level.info ("12:00:00" ++ " [" ++ lgA.ns ++ "] " ++ "x") ∈
      loggerCall envDev lgA Level.info "x" [] "12:00:00" := by
  exact (claim3_console_policy envDev lgA "x" [] "12:00:00").2.1 Level.info
    (by decide) (by decide) (by decide)

/-- C5 counterexample: a backend module that loads but whose construction
throws makes the provider initializer itself throw instead of falling back to
"unavailable". -/
theorem claim5_counterexample :
    providerInit (Except.ok (some 0)) (fun _ => Except.error "boom") =
      Except.error "boom" := rfl

/-- C5 amended: only module-load errors are swallowed (the provider then
reports unavailable); an error thrown while constructing the root backend
instance propagates out of the initializer, and a successful construction
yields an available provider. -/
theorem claim5_amended :
    (∀ (e : String) (construct : Nat → Except String Nat),
      providerInit (Except.error e) construct =
        Except.ok { pinoAvailable := false, basePino := none }) ∧
    (∀ (modl : Nat) (e : String),
      providerInit (Except.ok (some modl)) (fun _ => Except.error e) =
        Except.error e) ∧
    (∀ (modl p : Nat),
      providerInit (Except.ok (some modl)) (fun _ => Except.ok p) =
        Except.ok { pinoAvailable := true, basePino := some p }) ∧
    (∀ construct : Nat → Except String Nat,
      providerInit (Except.ok none) construct =
        Except.ok { pinoAvailable := false, basePino := none }) :=
  ⟨fun _ _ => rfl, fun _ _ => rfl, fun _ _ => rfl, fun _ => rfl⟩

/-- C6: the constructor computes `enabled` as the spec's cascade: false under
the strip flag; else false when `options.enabled` is explicitly false; else
false when in production with no structured backend and no transports
supplied; else true. -/
theorem claim6_enabled_rule : ∀ (env : Env) (options : LoggerOptions),
    (mkLogger env options).enabled =
      (if env.stripLogs then false
       else if options.enabled == some false then false
       else if env.isProd && !env.pinoAvailable && (options.transports.getD []).isEmpty
         then false
       else true) := by
  intro env options
  rcases env with ⟨prod, strip, pino⟩
  rcases options with ⟨ns0, en0, lv0, ld0, lf0, dc0, ms0, mf0, fr0, tr0⟩
  simp only [mkLogger]
  rcases en0 with _ | eb <;> rcases tr0 with _ | ts <;>
    (try cases eb) <;> (try rcases ts with _ | ⟨t0, ts2⟩) <;>
    cases strip <;> cases prod <;> cases pino <;>
    simp [List.isEmpty]

/-- C7: when the first variadic argument is a plain object whose `error`
field is an Error instance, the structured entry carries no `error` field,
carries the flattened name, message and stack under `err`, keeps the
remaining context fields beside the message, and is exactly the object handed
to the structured backend. -/
theorem claim7_error_lifting : ∀ (message : String) (fields : List (String × JField))
    (e : JsError) (rest : List JArg),
    (fields.map Prod.fst).Nodup →
    alookup fields "error" = some (JField.errv e) →
    (alookup (emitEntry message (JArg.obj fields :: rest)) "error" = none ∧
     alookup (emitEntry message (JArg.obj fields :: rest)) "err" =
       some (EValue.errObj e) ∧
     (∀ k, k ≠ "error" → k ≠ "err" → k ≠ "msg" →
       alookup (emitEntry message (JArg.obj fields :: rest)) k =
         (alookup fields k).map EValue.field) ∧
     (∀ (env : Env) (lg : Logger) (now : String),
       Event.backendCall Level.error (emitEntry message (JArg.obj fields :: rest)) rest ∈
         loggerError env lg message (JArg.obj fields :: rest) now)) := by
  intro message fields e rest hnd h
  have hentry : emitEntry message (JArg.obj fields :: rest) =
      jsSet (objAssign [("msg", EValue.field (JField.scalar (JScalar.str message)))]
        (jsDelete fields "error")) "err" (EValue.errObj e) := by
    simp [emitEntry, extractContext, liftError, h]
  have hdnd : ((jsDelete fields "error").map Prod.fst).Nodup := by
    have hsub : List.Sublist ((jsDelete fields "error").map Prod.fst)
        (fields.map Prod.fst) :=
      List.Sublist.map Prod.fst (List.filter_sublist fields)
    exact hnd.sublist hsub
  refine ⟨?_, ?_, ?_, ?_⟩
  · rw [hentry, alookup_jsSet_ne _ _ _ _ (by decide),
      objAssign_lookup_of_nodup _ _ _ hdnd, alookup_jsDelete_self]
    rw [alookup_cons]
    simp [alookup]
  · rw [hentry, alookup_jsSet_self]
  · intro k hkerror hkerr hkmsg
    rw [hentry, alookup_jsSet_ne _ _ _ _ hkerr,
      objAssign_lookup_of_nodup _ _ _ hdnd, alookup_jsDelete_ne _ _ _ hkerror]
    cases hf : alookup fields k with
    | some v => simp
    | none =>
      rw [alookup_cons]
      have : ("msg" == k) = false := by
        cases hq : "msg" == k with
        | false => rfl
        | true =>
          have hq2 : "msg" = k := by simpa using hq
          exact absurd hq2.symm hkmsg
      simp [this, alookup]
  · intro env lg now
    simp [loggerError, emitEvents, gateBlocks, extractContext, restArgs]

/-- Witness for C7 at a concrete context carrying an Error and one extra
field. -/
theorem claim7_error_lifting_witness :
    alookup (emitEntry "failed" [JArg.obj ctxC7]) "err" = some (EValue.errObj jsBoom) ∧
    alookup (emitEntry "failed" [JArg.obj ctxC7]) "error" = none := by
  constructor
  · exact (claim7_error_lifting "failed" ctxC7 jsBoom [] (by decide) (by decide)).2.1
  · exact (claim7_error_lifting "failed" ctxC7 jsBoom [] (by decide) (by decide)).1

theorem fanoutAux_spec (level : Level) (ns msg : String)
    (entry : List (String × EValue)) :
    ∀ (ts : List LogTransport) (k i : Nat) (t : LogTransport),
    ts[i]? = some t → t.throws = true →
    (∀ j tj, j < i → ts[j]? = some tj → tj.throws = false) →
    ((∀ j, j ≤ i →
        Event.transportCall (k + j) level ns msg entry ∈
          (fanoutAux level ns msg entry k ts).1) ∧
     (∀ e ∈ (fanoutAux level ns msg entry k ts).1,
        ∃ j, j ≤ i ∧ e = Event.transportCall (k + j) level ns msg entry) ∧
     (fanoutAux level ns msg entry k ts).2 = true) := by
  intro ts
  induction ts with
  | nil => intro k i t hget; simp at hget
  | cons t0 rest ih =>
    intro k i t hget hthrow hbefore
    cases i with
    | zero =>
      have ht0 : t0 = t := by simpa using hget
      rw [fanoutAux]
      rw [ht0, hthrow]
      refine ⟨?_, ?_, rfl⟩
      · intro j hj
        have hj0 : j = 0 := Nat.le_zero.mp hj
        rw [hj0]
        simp
      · intro e he
        simp at he
        exact ⟨0, Nat.le_refl 0, by simpa using he⟩
    | succ i2 =>
      have ht0 : t0.throws = false := by
        have := hbefore 0 t0 (Nat.succ_pos i2) (by simp)
        exact this
      have hget2 : rest[i2]? = some t := by simpa using hget
      have hbefore2 : ∀ j tj, j < i2 → rest[j]? = some tj → tj.throws = false := by
        intro j tj hj hg
        exact hbefore (j + 1) tj (Nat.succ_lt_succ hj) (by simpa using hg)
      obtain ⟨ih1, ih2, ih3⟩ := ih (k + 1) i2 t hget2 hthrow hbefore2
      rw [fanoutAux, ht0]
      refine ⟨?_, ?_, by simpa using ih3⟩
      · intro j hj
        cases j with
        | zero => simp
        | succ j2 =>
          have hj2 : j2 ≤ i2 := Nat.succ_le_succ_iff.mp hj
          have := ih1 j2 hj2
          have harith : k + 1 + j2 = k + (j2 + 1) := by omega
          rw [harith] at this
          simp only [Bool.false_eq_true, if_false, List.mem_cons]
          right
          exact this
      · intro e he
        simp only [Bool.false_eq_true, if_false, List.mem_cons] at he
        rcases he with he | he
        · exact ⟨0, Nat.zero_le _, by simpa using he⟩
        · obtain ⟨j2, hj2, hev⟩ := ih2 e he
          refine ⟨j2 + 1, Nat.succ_le_succ hj2, ?_⟩
          have harith : k + 1 + j2 = k + (j2 + 1) := by omega
          rw [← harith]
          exact hev

/-- C1 counterexample: with transport list [throwing, well-behaved], an info
call invokes the first transport and reports one diagnostic, but the second
transport is never invoked, refuting that transports after a throwing one
still run on the same call. -/
theorem claim1_counterexample :
    loggerInfo envDev lgC1 "m" [] "12:00:00" =
      [Event.backendCall Level.info
         [("msg", EValue.field (JField.scalar (JScalar.str "m")))] [],
       Event.transportCall 0 Level.info "S" "m"
         [("msg", EValue.field (JField.scalar (JScalar.str "m")))],
       Event.consoleDiag,
       Event.consoleLine Level.info "12:00:00 [S] m"] ∧
    (loggerInfo envDev lgC1 "m" [] "12:00:00").all
      (fun e => !(trIdx e == some 1)) = true := by
  constructor
  · decide
  · decide

/-- C1 amended: when some transport throws, the throwing transport and all
transports before it are invoked with the same level, namespace, message and
entry copy, no transport after the throwing one is invoked, the failure is
reported exactly once as a console diagnostic, and the emission call still
completes its console stage as usual (the exception does not escape). -/
theorem claim1_amended : ∀ (env : Env) (lg : Logger) (level : Level) (msg : String)
    (args : List JArg) (now : String) (wc : Bool) (i : Nat) (t : LogTransport),
    lg.transports[i]? = some t → t.throws = true →
    (∀ j tj, j < i → lg.transports[j]? = some tj → tj.throws = false) →
    gateBlocks env lg level = false →
    ((∀ j, j ≤ i → Event.transportCall j level lg.ns msg (emitEntry msg args) ∈
        emitEvents env lg level msg args wc now) ∧
     (∀ e ∈ emitEvents env lg level msg args wc now,
        ∀ j, trIdx e = some j → j ≤ i) ∧
     (emitEvents env lg level msg args wc now).count Event.consoleDiag = 1 ∧
     (wc = true → level ≠ Level.debug → lg.disableConsole = false →
       Event.consoleLine level (formatConsoleMessage now lg.ns msg) ∈
         emitEvents env lg level msg args wc now)) := by
  intro env lg level msg args now wc i t hget hthrow hbefore hgate
  obtain ⟨spec1, spec2, spec3⟩ :=
    fanoutAux_spec level lg.ns msg (emitEntry msg args) lg.transports 0 i t
      hget hthrow hbefore
  have hlen : 0 < lg.transports.length := by
    cases hl : lg.transports with
    | nil => rw [hl] at hget; simp at hget
    | cons a l => simp
  have hev : emitEvents env lg level msg args wc now =
      Event.backendCall level (emitEntry msg args) (restArgs args) ::
        (fanout lg.transports level lg.ns msg (emitEntry msg args) ++
          (if wc && level != Level.debug && !lg.disableConsole then
            [Event.consoleLine level (formatConsoleMessage now lg.ns msg)]
          else [])) := by
    rw [emitEvents]
    simp only [hgate]
    simp [hlen]
  refine ⟨?_, ?_, ?_, ?_⟩
  · intro j hj
    have hmem := spec1 j hj
    rw [Nat.zero_add] at hmem
    rw [hev]
    apply List.mem_cons_of_mem
    apply List.mem_append_left
    simp only [fanout]
    exact List.mem_append_left _ hmem
  · intro e he j hj
    rw [hev] at he
    rcases List.mem_cons.mp he with he | he
    · rw [he] at hj; simp [trIdx] at hj
    rcases List.mem_append.mp he with he | he
    · simp only [fanout] at he
      rcases List.mem_append.mp he with he | he
      · obtain ⟨j2, hj2, hev2⟩ := spec2 e he
        rw [hev2] at hj
        simp [trIdx] at hj
        omega
      · cases hb : (fanoutAux level lg.ns msg (emitEntry msg args) 0 lg.transports).2 <;>
          simp [hb] at he
        rw [he] at hj
        simp [trIdx] at hj
    · cases hc : (wc && level != Level.debug && !lg.disableConsole) <;>
        simp [hc] at he
      rw [he] at hj
      simp [trIdx] at hj
  · rw [hev]
    rw [List.count_cons]
    rw [List.count_append]
    have hc1 : (fanout lg.transports level lg.ns msg (emitEntry msg args)).count
        Event.consoleDiag = 1 := by
      simp only [fanout]
      rw [List.count_append]
      have hz : (fanoutAux level lg.ns msg (emitEntry msg args) 0
          lg.transports).1.count Event.consoleDiag = 0 := by
        rw [List.count_eq_zero]
        intro hmem
        obtain ⟨j2, hj2, hev2⟩ := spec2 _ hmem
        simp at hev2
      rw [hz, spec3]
      simp
    have hc2 : (if wc && level != Level.debug && !lg.disableConsole then
        [Event.consoleLine level (formatConsoleMessage now lg.ns msg)]
      else []).count Event.consoleDiag = 0 := by
      cases hc : (wc && level != Level.debug && !lg.disableConsole) <;> simp [hc]
    rw [hc1, hc2]
    simp
  · intro hwc hlevel hdc
    rw [hev]
    have hcond : (wc && level != Level.debug && !lg.disableConsole) = true := by
      simp [hwc, hdc, hlevel]
    rw [hcond]
    simp

/-- Witness for C1 amended at the concrete two-transport logger. -/
theorem claim1_amended_witness :
    (emitEvents envDev lgC1 Level.info "m" [] true "12:00:00").count
      Event.consoleDiag = 1 := by
  exact (claim1_amended envDev lgC1 Level.info "m" [] "12:00:00" true 0 trBad rfl rfl
    (fun j tj hj hg => absurd hj (Nat.not_lt_zero j)) (by decide)).2.2.1

theorem setConfigOne_eq (env : Env) (lg : Logger) (cfg : LoggerOptions) :
    setConfigOne env lg cfg =
      { ns := lg.ns
        children := lg.children
        logDir := cfg.logDir.getD lg.logDir
        logFileName := cfg.logFileName.getD lg.logFileName
        disableConsole := cfg.disableConsole.getD lg.disableConsole
        maxSize := (match cfg.maxSize with | some v => some v | none => lg.maxSize)
        maxFiles := (match cfg.maxFiles with | some v => some v | none => lg.maxFiles)
        frequency := (match cfg.frequency with | some v => some v | none => lg.frequency)
        minLevel := cfg.level.getD lg.minLevel
        transports := cfg.transports.getD lg.transports
        enabled :=
          (let e1 := match cfg.enabled with
            | some b => !env.stripLogs && b && (!env.isProd || env.pinoAvailable ||
                (decide ((cfg.transports.getD []).length > 0) ||
                 decide (lg.transports.length > 0)))
            | none => lg.enabled
          match cfg.transports with
          | some ts =>
            if decide (ts.length > 0) && !e1 && !env.stripLogs then true else e1
          | none => e1) } := by
  rcases cfg with ⟨n0, e0, l0, d0, f0, c0, s0, m0, q0, t0⟩
  unfold setConfigOne
  cases d0 <;> cases f0 <;> cases c0 <;> cases s0 <;> cases m0 <;> cases q0 <;>
    cases l0 <;> cases e0 <;> cases t0 <;> dsimp only <;>
    first
    | rfl
    | (split <;> rfl)

/-- C4 counterexample: a production logger enabled through its transports,
given `setConfig({transports: []})`, keeps `enabled = true`, while the
construction rule applied to the same resulting field values yields
`enabled = false`; so `setConfig` does not recompute `enabled` by the
construction rule whenever the partial contains `transports`. -/
theorem claim4_counterexample :
    (setConfigOne envProdNoPino lgProdTr { transports := some [] }).enabled = true ∧
    (mkLogger envProdNoPino { transports := some [] }).enabled = false := by
  constructor
  · decide
  · decide

/-- C4 amended: `setConfig` overwrites exactly the managed fields present in
the partial (namespace and children are never touched); when the partial
carries `enabled`, the flag is recomputed by the construction rule, counting
transports from the partial or the current list; a non-empty `transports`
list replaces the list and force-enables the logger unless the strip flag is
set, while an empty one replaces the list and leaves `enabled` unchanged; the
partial is applied recursively to every cached child, so the two-children
example updates `enabled` and the transport list on both children. -/
theorem claim4_amended : ∀ (env : Env) (lg : Logger) (cfg : LoggerOptions),
    ((setConfigOne env lg cfg).ns = lg.ns ∧
     (setConfigOne env lg cfg).children = lg.children) ∧
    (cfg.logDir = none → (setConfigOne env lg cfg).logDir = lg.logDir) ∧
    (cfg.logFileName = none → (setConfigOne env lg cfg).logFileName = lg.logFileName) ∧
    (cfg.disableConsole = none →
      (setConfigOne env lg cfg).disableConsole = lg.disableConsole) ∧
    (cfg.maxSize = none → (setConfigOne env lg cfg).maxSize = lg.maxSize) ∧
    (cfg.maxFiles = none → (setConfigOne env lg cfg).maxFiles = lg.maxFiles) ∧
    (cfg.frequency = none → (setConfigOne env lg cfg).frequency = lg.frequency) ∧
    (cfg.level = none → (setConfigOne env lg cfg).minLevel = lg.minLevel) ∧
    (cfg.transports = none → (setConfigOne env lg cfg).transports = lg.transports) ∧
    (∀ v, cfg.logDir = some v → (setConfigOne env lg cfg).logDir = v) ∧
    (∀ v, cfg.level = some v → (setConfigOne env lg cfg).minLevel = v) ∧
    (∀ ts, cfg.transports = some ts → (setConfigOne env lg cfg).transports = ts) ∧
    (∀ b, cfg.enabled = some b → cfg.transports = none →
      (setConfigOne env lg cfg).enabled =
        (!env.stripLogs && b &&
          (!env.isProd || env.pinoAvailable || decide (lg.transports.length > 0)))) ∧
    (∀ ts, cfg.transports = some ts → ts ≠ [] → cfg.enabled = none →
      (setConfigOne env lg cfg).enabled = (lg.enabled || !env.stripLogs)) ∧
    (cfg.transports = some [] → cfg.enabled = none →
      (setConfigOne env lg cfg).enabled = lg.enabled) ∧
    ((setConfigSys envProdNoPino 3 sysTwoKids 0
        { transports := some [trOk] }).loggers[1]?.map
        (fun l => (l.enabled, l.transports)) = some (true, [trOk]) ∧
     (setConfigSys envProdNoPino 3 sysTwoKids 0
        { transports := some [trOk] }).loggers[2]?.map
        (fun l => (l.enabled, l.transports)) = some (true, [trOk]) ∧
     (setConfigSys envProdNoPino 3 sysTwoKids 0
        { transports := some [trOk] }).loggers[0]?.map
        (fun l => (l.enabled, l.transports)) = some (true, [trOk])) := by
  intro env lg cfg
  refine ⟨⟨?_, ?_⟩, ?_, ?_, ?_, ?_, ?_, ?_, ?_, ?_, ?_, ?_, ?_, ?_, ?_, ?_, ?_⟩
  · rw [setConfigOne_eq]
  · rw [setConfigOne_eq]
  · intro h; rw [setConfigOne_eq]; simp [h]
  · intro h; rw [setConfigOne_eq]; simp [h]
  · intro h; rw [setConfigOne_eq]; simp [h]
  · intro h; rw [setConfigOne_eq]; simp [h]
  · intro h; rw [setConfigOne_eq]; simp [h]
  · intro h; rw [setConfigOne_eq]; simp [h]
  · intro h; rw [setConfigOne_eq]; simp [h]
  · intro h; rw [setConfigOne_eq]; simp [h]
  · intro v h; rw [setConfigOne_eq]; simp [h]
  · intro v h; rw [setConfigOne_eq]; simp [h]
  · intro ts h; rw [setConfigOne_eq]; simp [h]
  · intro b hb ht
    rw [setConfigOne_eq]
    simp [hb, ht]
  · intro ts hts hne hen
    rw [setConfigOne_eq]
    have hd : decide (ts.length > 0) = true := by
      cases ts with
      | nil => exact absurd rfl hne
      | cons a l => simp
    simp only [hts, hen]
    simp only [hd]
    cases lg.enabled <;> cases env.stripLogs <;> simp
  · intro hts hen
    rw [setConfigOne_eq]
    simp [hts, hen]
  · refine ⟨by decide, by decide, by decide⟩

/-- Witness for C4 amended at a concrete partial carrying only `logDir`. -/
theorem claim4_amended_witness :
    (setConfigOne envDev lgA { logDir := some "/var/log" }).logDir = "/var/log" := by
  obtain ⟨-, -, -, -, -, -, -, -, -, hld, -, -, -, -, -, -⟩ :=
    claim4_amended envDev lgA { logDir := some "/var/log" }
  exact hld "/var/log" rfl

theorem splitDotsAux_ne_nil : ∀ (cs : List Char) (acc : List Char),
    splitDotsAux cs acc ≠ [] := by
  intro cs
  induction cs with
  | nil => intro acc; simp [splitDotsAux]
  | cons c cs ih =>
    intro acc
    rw [splitDotsAux]
    split
    · simp
    · exact ih (c :: acc)

theorem splitDotsAux_join : ∀ (cs acc : List Char) (h : String) (t : List String),
    splitDotsAux cs acc = h :: t →
    h.data ++ (t.map (fun u => '.' :: u.data)).flatten = acc.reverse ++ cs := by
  intro cs
  induction cs with
  | nil =>
    intro acc h t hsp
    rw [splitDotsAux] at hsp
    injection hsp with h1 h2
    rw [← h1, ← h2]
    simp
  | cons c cs ih =>
    intro acc h t hsp
    rw [splitDotsAux] at hsp
    by_cases hc : c = '.'
    · rw [if_pos hc] at hsp
      injection hsp with h1 h2
      cases hsp2 : splitDotsAux cs [] with
      | nil => exact absurd hsp2 (splitDotsAux_ne_nil cs [])
      | cons h2h h2t =>
        rw [hsp2] at h2
        have ihres := ih [] h2h h2t hsp2
        simp at ihres
        rw [← h1, ← h2]
        simp [ihres, hc]
    · rw [if_neg hc] at hsp
      have ihres := ih (c :: acc) h t hsp
      rw [List.reverse_cons] at ihres
      rw [ihres]
      simp

theorem joinPath_data : ∀ (t : List String) (base : String),
    (joinPath base t).data = base.data ++ (t.map (fun u => '.' :: u.data)).flatten := by
  intro t
  induction t with
  | nil => intro base; simp [joinPath]
  | cons u t ih =>
    intro base
    have hstep : joinPath base (u :: t) = joinPath (base ++ "." ++ u) t := rfl
    rw [hstep, ih]
    have hdata : (base ++ "." ++ u).data = base.data ++ '.' :: u.data := by
      rw [String.data_append, String.data_append]
      simp
    rw [hdata]
    simp

theorem splitDots_joinPath (s : String) (h : String) (t : List String)
    (hsp : splitDots s = h :: t) : joinPath h t = s := by
  apply String.ext
  rw [joinPath_data]
  have := splitDotsAux_join s.data [] h t hsp
  simpa using this

theorem childOp_registry (env : Env) (sys : Sys) (pid : Nat) (sub : String) :
    (childOp env sys pid sub).1.registry = sys.registry := by
  unfold childOp
  cases h : sys.loggers[pid]? with
  | none => rfl
  | some p =>
    dsimp only
    cases halo : alookup p.children sub with
    | some cid => rfl
    | none => rfl

theorem getLoggerLoop_registers (env : Env) : ∀ (segs : List String) (sys : Sys)
    (cur : Nat) (curPath : String), alookup sys.registry curPath = some cur →
    alookup (getLoggerLoop env segs sys cur curPath).1.registry
        (joinPath curPath segs) =
      some (getLoggerLoop env segs sys cur curPath).2 := by
  intro segs
  induction segs with
  | nil =>
    intro sys cur curPath h
    simpa [getLoggerLoop, joinPath] using h
  | cons seg rest ih =>
    intro sys cur curPath h
    rw [getLoggerLoop]
    have hjp : joinPath curPath (seg :: rest) = joinPath (curPath ++ "." ++ seg) rest := rfl
    rw [hjp]
    cases hnext : alookup sys.registry (curPath ++ "." ++ seg) with
    | some cid => exact ih sys cid (curPath ++ "." ++ seg) hnext
    | none =>
      have hreg : (childOp env sys cur seg).1.registry = sys.registry :=
        childOp_registry env sys cur seg
      have hlook : alookup ((childOp env sys cur seg).1.registry ++
          [(curPath ++ "." ++ seg, (childOp env sys cur seg).2)])
          (curPath ++ "." ++ seg) = some (childOp env sys cur seg).2 := by
        rw [hreg]
        exact alookup_append_self _ _ _ hnext
      simp only [hlook, Option.getD_some]
      exact ih _ _ _ hlook

theorem getLogger_registers (env : Env) (sys : Sys) (path : String) :
    alookup (getLogger env sys path).1.registry path =
      some (getLogger env sys path).2 := by
  rw [getLogger]
  cases h0 : alookup sys.registry path with
  | some id => simpa using h0
  | none =>
    cases hsp : splitDots path with
    | nil => exact absurd hsp (splitDotsAux_ne_nil path.data [])
    | cons root rest =>
      have hjoin : joinPath root rest = path := splitDots_joinPath path root rest hsp
      cases hroot : alookup sys.registry root with
      | some x =>
        have hres := getLoggerLoop_registers env rest sys x root hroot
        rw [hjoin] at hres
        simpa [hroot] using hres
      | none =>
        have hlook : alookup (sys.registry ++ [(root, sys.loggers.length)]) root =
            some sys.loggers.length := alookup_append_self _ _ _ hroot
        have hres := getLoggerLoop_registers env rest
          { loggers := sys.loggers ++ [mkLogger env { ns := some root }],
            registry := sys.registry ++ [(root, sys.loggers.length)] }
          sys.loggers.length root hlook
        rw [hjoin] at hres
        simpa [hroot, hlook] using hres

/-- C8: the registry returns the reference-identical logger for the same path
on any two consecutive calls, and the concrete example -- getLogger "A",
then child "B", then getLogger "A.B" -- yields that same child instance. -/
theorem claim8_registry_canonical :
    (∀ (env : Env) (sys : Sys) (path : String),
      getLogger env (getLogger env sys path).1 path = getLogger env sys path) ∧
    ((getLogger envDev (childOp envDev (getLogger envDev sysInit "A").1
        (getLogger envDev sysInit "A").2 "B").1 "A.B").2 =
      (childOp envDev (getLogger envDev sysInit "A").1
        (getLogger envDev sysInit "A").2 "B").2) := by
  constructor
  · intro env sys path
    have h := getLogger_registers env sys path
    conv_lhs => rw [getLogger]
    rw [h]
  · decide

theorem append_dot_beq_empty_false (a b : String) : ((a ++ "." ++ b) == "") = false := by
  cases hq : (a ++ "." ++ b) == "" with
  | false => rfl
  | true =>
    have hqq : a ++ "." ++ b = "" := by simpa using hq
    have hd := congrArg String.data hqq
    rw [String.data_append, String.data_append] at hd
    simp at hd

/-- C9: `child(name)` is memoized -- a second call with the same name returns
the identical child and leaves the state unchanged -- and the returned
child's namespace is the parent's namespace + "." + name, on every state
satisfying the namespace invariant. -/
theorem claim9_child_memoized : ∀ (env : Env) (sys : Sys) (pid : Nat) (sub : String)
    (lg : Logger), WFNamespaces sys → sys.loggers[pid]? = some lg →
    (childOp env (childOp env sys pid sub).1 pid sub = childOp env sys pid sub ∧
     ∃ cl, (childOp env sys pid sub).1.loggers[(childOp env sys pid sub).2]? = some cl ∧
       cl.ns = lg.ns ++ "." ++ sub) := by
  intro env sys pid sub lg hwf hl
  have hpidlt : pid < sys.loggers.length := (List.getElem?_eq_some.mp hl).1
  cases halo : alookup lg.children sub with
  | some cid =>
    have hres : childOp env sys pid sub = (sys, cid) := by
      unfold childOp
      rw [hl]
      dsimp only
      rw [halo]
    have hpair : (sub, cid) ∈ lg.children := alookup_mem_pair halo
    have hmem : lg ∈ sys.loggers := List.getElem?_mem hl
    have hok := hwf lg hmem (sub, cid) hpair
    rw [childNsOK] at hok
    constructor
    · rw [hres]
      exact hres
    · cases hcl : sys.loggers[cid]? with
      | none => rw [hcl] at hok; simp at hok
      | some cl =>
        rw [hcl] at hok
        simp at hok
        refine ⟨cl, ?_, hok⟩
        rw [hres]
        exact hcl
  | none =>
    have hres : childOp env sys pid sub =
        (setLogger { loggers := sys.loggers ++ [mkLogger env
              { ns := some (lg.ns ++ "." ++ sub), enabled := some lg.enabled,
                level := some lg.minLevel, logDir := some lg.logDir,
                logFileName := some lg.logFileName,
                disableConsole := some lg.disableConsole,
                maxSize := lg.maxSize, maxFiles := lg.maxFiles,
                frequency := lg.frequency,
                transports := some lg.transports }], registry := sys.registry } pid
            { lg with children := lg.children ++ [(sub, sys.loggers.length)] },
          sys.loggers.length) := by
      unfold childOp
      rw [hl]
      dsimp only
      rw [halo]
    have hget2 : (childOp env sys pid sub).1.loggers[pid]? =
        some { lg with children := lg.children ++ [(sub, sys.loggers.length)] } := by
      rw [hres]
      show ((sys.loggers ++ [_]).set pid _)[pid]? = _
      rw [List.getElem?_set_eq]
      rw [List.length_append]
      omega
    have halo2 : alookup (lg.children ++ [(sub, sys.loggers.length)]) sub =
        some sys.loggers.length := alookup_append_self _ _ _ halo
    constructor
    · conv_lhs => rw [childOp]
      rw [hget2]
      dsimp only
      rw [halo2]
      rw [hres]
    · have hcidne : pid ≠ sys.loggers.length := by omega
      have hchild : (childOp env sys pid sub).1.loggers[sys.loggers.length]? =
          some (mkLogger env
            { ns := some (lg.ns ++ "." ++ sub), enabled := some lg.enabled,
              level := some lg.minLevel, logDir := some lg.logDir,
              logFileName := some lg.logFileName,
              disableConsole := some lg.disableConsole,
              maxSize := lg.maxSize, maxFiles := lg.maxFiles,
              frequency := lg.frequency,
              transports := some lg.transports }) := by
        rw [hres]
        show ((sys.loggers ++ [_]).set pid _)[sys.loggers.length]? = _
        rw [List.getElem?_set_ne hcidne]
        exact List.getElem?_concat_length _ _
      have hns : (mkLogger env
          { ns := some (lg.ns ++ "." ++ sub), enabled := some lg.enabled,
            level := some lg.minLevel, logDir := some lg.logDir,
            logFileName := some lg.logFileName,
            disableConsole := some lg.disableConsole,
            maxSize := lg.maxSize, maxFiles := lg.maxFiles,
            frequency := lg.frequency,
            transports := some lg.transports }).ns = lg.ns ++ "." ++ sub := by
        simp [mkLogger, orEmpty, append_dot_beq_empty_false]
      refine ⟨_, ?_, hns⟩
      rw [hres] at hchild ⊢
      exact hchild

/-- Witness for C9 at a concrete one-logger state. -/
theorem claim9_child_memoized_witness :
    childOp envDev (childOp envDev sysW 0 "B").1 0 "B" = childOp envDev sysW 0 "B" := by
  exact (claim9_child_memoized envDev sysW 0 "B" lgA (by decide) (by decide)).1

theorem setConfigOne_children (env : Env) (lg : Logger) (cfg : LoggerOptions) :
    (setConfigOne env lg cfg).children = lg.children := by
  rw [setConfigOne_eq]

theorem setConfigSys_avoid (env : Env) (j : Nat) : ∀ (fuel : Nat) (sys : Sys)
    (id : Nat) (cfg : LoggerOptions), id ≠ j → childAvoid sys j →
    ((setConfigSys env fuel sys id cfg).loggers[j]? = sys.loggers[j]? ∧
     childAvoid (setConfigSys env fuel sys id cfg) j) := by
  intro fuel
  induction fuel with
  | zero =>
    intro sys id cfg hne hav
    exact ⟨rfl, hav⟩
  | succ fuel ih =>
    intro sys id cfg hne hav
    rw [setConfigSys]
    cases hid : sys.loggers[id]? with
    | none => exact ⟨rfl, hav⟩
    | some lg =>
      dsimp only
      have hav1 : childAvoid (setLogger sys id (setConfigOne env lg cfg)) j := by
        intro l hmem p hp
        rcases List.mem_or_eq_of_mem_set hmem with hmem | hmem
        · exact hav l hmem p hp
        · rw [hmem] at hp
          rw [setConfigOne_children] at hp
          exact hav lg (List.getElem?_mem hid) p hp
      have hg1 : (setLogger sys id (setConfigOne env lg cfg)).loggers[j]? =
          sys.loggers[j]? := List.getElem?_set_ne hne
      have hkids : ∀ p ∈ (setConfigOne env lg cfg).children, p.2 ≠ j := by
        intro p hp
        rw [setConfigOne_children] at hp
        exact hav lg (List.getElem?_mem hid) p hp
      have main : ∀ (cs : List (String × Nat)) (s : Sys), (∀ p ∈ cs, p.2 ≠ j) →
          childAvoid s j →
          ((cs.foldl (fun s2 p => setConfigSys env fuel s2 p.2 cfg) s).loggers[j]? =
            s.loggers[j]? ∧
           childAvoid (cs.foldl (fun s2 p => setConfigSys env fuel s2 p.2 cfg) s) j) := by
        intro cs
        induction cs with
        | nil =>
          intro s hcs hs
          exact ⟨rfl, hs⟩
        | cons p cs ihc =>
          intro s hcs hs
          have hp := hcs p (List.mem_cons_self p cs)
          obtain ⟨h1, h2⟩ := ih s p.2 cfg hp hs
          have hcs2 : ∀ q ∈ cs, q.2 ≠ j := fun q hq => hcs q (List.mem_cons_of_mem p hq)
          obtain ⟨h3, h4⟩ := ihc (setConfigSys env fuel s p.2 cfg) hcs2 h2
          rw [List.foldl_cons]
          exact ⟨h3.trans h1, h4⟩
      obtain ⟨hm1, hm2⟩ := main (setConfigOne env lg cfg).children
        (setLogger sys id (setConfigOne env lg cfg)) hkids hav1
      exact ⟨hm1.trans hg1, hm2⟩

theorem orEmpty_some_of_ne (s d : String) (h : s ≠ "") : orEmpty (some s) d = s := by
  rw [orEmpty]
  have hq2 : (s == "") = false := by
    cases hq : s == "" with
    | false => rfl
    | true =>
      have : s = "" := by simpa using hq
      exact absurd this h
  rw [hq2]
  simp

/-- C10 counterexample: on a production logger enabled only through its
transports, `with` produces a copy whose `enabled` is false while the
receiver's is true, refuting that the returned logger shares the enabled
state. -/
theorem claim10_counterexample :
    ((withOp envProdNoPino sysC10 0).1.loggers[1]?).map Logger.enabled = some false ∧
    (sysC10.loggers[0]?).map Logger.enabled = some true := by
  constructor
  · decide
  · decide

/-- C10 amended: `with` returns a fresh logger copying the namespace, minimum
level and console/rotation settings, with an empty transport list and an
empty child map; its `enabled` flag is re-derived by the construction rule
with no transports, so it equals `!strip && parentEnabled && (!prod || pino)`
rather than always matching the parent; the receiver (and its child map) is
unchanged, and `setConfig` on the receiver never touches the returned
logger. -/
theorem claim10_with_amended : ∀ (env : Env) (sys : Sys) (id : Nat) (lg : Logger),
    sys.loggers[id]? = some lg → lg.ns ≠ "" → lg.logDir ≠ "" → lg.logFileName ≠ "" →
    ChildrenClosed sys →
    ((withOp env sys id).2 = sys.loggers.length ∧
     (∃ fr, (withOp env sys id).1.loggers[(withOp env sys id).2]? = some fr ∧
       fr.ns = lg.ns ∧ fr.minLevel = lg.minLevel ∧ fr.logDir = lg.logDir ∧
       fr.logFileName = lg.logFileName ∧ fr.disableConsole = lg.disableConsole ∧
       fr.maxSize = lg.maxSize ∧ fr.maxFiles = lg.maxFiles ∧
       fr.frequency = lg.frequency ∧ fr.transports = [] ∧ fr.children = [] ∧
       fr.enabled = (!env.stripLogs && lg.enabled &&
         (!env.isProd || env.pinoAvailable))) ∧
     (withOp env sys id).1.loggers[id]? = some lg ∧
     (∀ (fuel : Nat) (cfg : LoggerOptions),
       (setConfigSys env fuel (withOp env sys id).1 id cfg).loggers[(withOp env sys id).2]? =
         (withOp env sys id).1.loggers[(withOp env sys id).2]?)) := by
  intro env sys id lg hl hns hld hlf hclosed
  have hidlt : id < sys.loggers.length := (List.getElem?_eq_some.mp hl).1
  have hres : withOp env sys id =
      ({ sys with loggers := sys.loggers ++ [mkLogger env
          { ns := some lg.ns, enabled := some lg.enabled, level := some lg.minLevel,
            logDir := some lg.logDir, logFileName := some lg.logFileName,
            disableConsole := some lg.disableConsole, maxSize := lg.maxSize,
            maxFiles := lg.maxFiles, frequency := lg.frequency }] },
        sys.loggers.length) := by
    unfold withOp
    rw [hl]
  refine ⟨?_, ?_, ?_, ?_⟩
  · rw [hres]
  · refine ⟨mkLogger env
      { ns := some lg.ns, enabled := some lg.enabled, level := some lg.minLevel,
        logDir := some lg.logDir, logFileName := some lg.logFileName,
        disableConsole := some lg.disableConsole, maxSize := lg.maxSize,
        maxFiles := lg.maxFiles, frequency := lg.frequency }, ?_, ?_, ?_, ?_, ?_,
      ?_, ?_, ?_, ?_, ?_, ?_, ?_⟩
    · rw [hres]
      exact List.getElem?_concat_length _ _
    · simp [mkLogger, orEmpty_some_of_ne _ _ hns]
    · simp [mkLogger]
    · simp [mkLogger, orEmpty_some_of_ne _ _ hld]
    · simp [mkLogger, orEmpty_some_of_ne _ _ hlf]
    · simp [mkLogger]
    · simp [mkLogger]
    · simp [mkLogger]
    · simp [mkLogger]
    · simp [mkLogger]
    · simp [mkLogger]
    · cases he : lg.enabled <;> simp [mkLogger, he]
  · rw [hres]
    show (sys.loggers ++ [_])[id]? = some lg
    rw [List.getElem?_append_left hidlt]
    exact hl
  · intro fuel cfg
    have hidne : id ≠ sys.loggers.length := by omega
    have hav : childAvoid (withOp env sys id).1 sys.loggers.length := by
      rw [hres]
      intro l hmem p hp
      rcases List.mem_append.mp hmem with hmem | hmem
      · have := hclosed l hmem p hp
        omega
      · simp at hmem
        rw [hmem] at hp
        simp [mkLogger] at hp
    have hpres := (setConfigSys_avoid env sys.loggers.length fuel
      (withOp env sys id).1 id cfg hidne hav).1
    have h2 : (withOp env sys id).2 = sys.loggers.length := by rw [hres]
    rw [h2]
    exact hpres

/-- Witness for C10 amended at a concrete one-logger state. -/
theorem claim10_with_amended_witness :
    (withOp envDev sysW 0).2 = sysW.loggers.length := by
  exact (claim10_with_amended envDev sysW 0 lgA (by decide) (by decide) (by decide)
    (by decide) (by decide)).1
